import Mathlib

/-!
Verification of the RSP mock GDB server in
packages/Python/lldbsuite/test/functionalities/gdb_remote_client/gdbclientutils.py.

Python byte/character strings are embedded as `List Char` (each `Char`
holds the code point; `ord` is `Char.toNat`).  Fallible Python code is
embedded with `Except PyError`, where `PyError` names the Python
exception class that would be raised.
-/

/-- Python exceptions that the embedded code can raise. -/
inductive PyError where
  | indexError
  | typeError
  | valueError
  | unboundLocalError
deriving Repr, DecidableEq

/-- Embeds `checksum` (gdbclientutils.py lines 11-20): a running sum of
`ord(c)` over the message, taken mod 256 at the end. -/
def checksum (message : List Char) : Nat :=
  (message.foldl (fun check c => check + c.toNat) 0) % 256

/-- Lowercase hex digit for a value below 16, as produced by Python `%x`
formatting. -/
def hexDigitLower (n : Nat) : Char :=
  if n < 10 then Char.ofNat (48 + n) else Char.ofNat (87 + n)

/-- Embeds the Python format `"%02x" % n` for `n < 256` (the only use sites
format a checksum or a byte value, both below 256, so the result is always
exactly two lowercase hex digits). -/
def format02x (n : Nat) : List Char :=
  [hexDigitLower (n / 16 % 16), hexDigitLower (n % 16)]

/-- Embeds `frame_packet` (lines 23-31): `"$%s#%02x" % (message, checksum message)`. -/
def frame_packet (message : List Char) : List Char :=
  '$' :: (message ++ '#' :: format02x (checksum message))

/-- Embeds `escape_binary` (lines 34-50): bytes 0x23, 0x24, 0x7d become
0x7d followed by the byte xor 0x20; anything else passes through. -/
def escape_binary (message : List Char) : List Char :=
  message.foldl
    (fun out c =>
      if c.toNat = 0x23 ∨ c.toNat = 0x24 ∨ c.toNat = 0x7d then
        out ++ [Char.ofNat 0x7d, Char.ofNat (c.toNat ^^^ 0x20)]
      else out ++ [c])
    []

/-- Embeds `hex_encode_bytes` (lines 53-61): appends `"%02x" % ord(c)` for
each character (the inputs are byte strings, so `ord c < 256`). -/
def hex_encode_bytes (message : List Char) : List Char :=
  message.foldl (fun out c => out ++ format02x c.toNat) []

/-- Embeds `hex_decode_bytes` (lines 64-74).  The Python body is
`while i < hex_len - 1: out += chr(int(hex_bytes[i:i + 2]), 16); i += 2`
but the local variable `i` is never initialized, so evaluating the loop
condition raises `UnboundLocalError` on every call, before any input is
examined (were the guard passed, `chr(int(...), 16)` would raise a
`TypeError` as well, `chr` taking one argument).  The embedding therefore
returns that error unconditionally. -/
def hex_decode_bytes (hex_bytes : List Char) : Except PyError (List Char) :=
  .error .unboundLocalError

/-- The value of a hex digit character, or `none`; used to embed Python
`int(s, 16)` digit handling (`0`-`9`, `a`-`f`, `A`-`F`). -/
def hexDigitVal (c : Char) : Option Nat :=
  if 48 ≤ c.toNat ∧ c.toNat ≤ 57 then some (c.toNat - 48)
  else if 97 ≤ c.toNat ∧ c.toNat ≤ 102 then some (c.toNat - 87)
  else if 65 ≤ c.toNat ∧ c.toNat ≤ 70 then some (c.toNat - 55)
  else none

/-- The six ASCII characters Python `int` strips from either end of its
string argument. -/
def isPySpace (c : Char) : Bool :=
  c.toNat = 32 || c.toNat = 9 || c.toNat = 10 || c.toNat = 13 ||
    c.toNat = 11 || c.toNat = 12

/-- Strip Python whitespace from both ends of a string. -/
def pyStrip (s : List Char) : List Char :=
  ((s.dropWhile isPySpace).reverse.dropWhile isPySpace).reverse

/-- Accumulate the value of a hex digit string, failing on a non-digit. -/
def hexValAcc : List Char → Nat → Option Nat
  | [], acc => some acc
  | c :: rest, acc =>
    match hexDigitVal c with
    | some v => hexValAcc rest (acc * 16 + v)
    | none => none

/-- Embeds Python `int(s, 16)`: optional surrounding whitespace, optional
single sign, then a nonempty run of hex digits; `none` embeds the
`ValueError` raised otherwise.  (Python additionally accepts a `0x` prefix
and underscore digit grouping; neither can form a valid two-character
string, and all quantified theorems below restrict longer fields to plain
hex digits, where this embedding agrees with Python exactly.) -/
def pyIntHex (s : List Char) : Option Int :=
  match pyStrip s with
  | [] => none
  | c :: rest =>
    if c = '+' then (hexValAcc rest 0).bind (fun n => if rest = [] then none else some (n : Int))
    else if c = '-' then (hexValAcc rest 0).bind (fun n => if rest = [] then none else some (-(n : Int)))
    else (hexValAcc (c :: rest) 0).map (fun n => (n : Int))

/-- Embeds Python `str.split(sep)` for a one-character separator: split on
every occurrence, keeping empty pieces; `"".split(sep) == [""]`. -/
def pySplit (s : List Char) (sep : Char) : List (List Char) :=
  match s with
  | [] => [[]]
  | c :: rest =>
    if c = sep then [] :: pySplit rest sep
    else
      match pySplit rest sep with
      | [] => [[c]]
      | h :: t => (c :: h) :: t

example : checksum "+$#".data = 0x72 := by decide
example : frame_packet "OK".data = "$OK#9a".data := by decide
example : pySplit "0=12".data '=' = ["0".data, "12".data] := by decide
example : pyIntHex "43".data = some 67 := by decide
example : pyIntHex "4g".data = none := by decide
example : hex_encode_bytes "A".data = "41".data := by decide

/-- Errors raised as `InvalidPacketException` by `_parsePacket`
(lines 296, 318, 321). -/
inductive ParseError where
  | unexpectedLeadingByte (c : Char)
  | checksumNotValidHex
  | checksumMismatch (check : Int) (expected : Nat)
deriving Repr, DecidableEq

/-- The parser's slice of server state: `_receivedData` and
`_receivedDataOffset` (lines 200-201, 241-242). -/
structure ParserState where
  receivedData : List Char
  receivedDataOffset : Nat
deriving Repr, DecidableEq

/-- The three successful outcomes of `_parsePacket`: `None` (incomplete),
the `PACKET_ACK` sentinel, or a packet payload. -/
inductive ParseEvent where
  | incomplete
  | ack
  | packet (payload : List Char)
deriving Repr, DecidableEq

/-- Index of the first `#` at or after `start`, or the length of `data` if
there is none; embeds the scan loop at lines 302-303
(`while i < data_len and data[i] != '#': i += 1`). -/
def findTerm (data : List Char) (start : Nat) : Nat :=
  start + (data.drop start).findIdx (fun c => c == '#')

/-- Embeds `_parsePacket` (lines 268-328).  The returned `ParserState` is
the updated `(_receivedData, _receivedDataOffset)` pair; Python leaves both
unchanged on the empty-buffer early return, stores the scan position on the
not-enough-data return (line 308), drops one byte on an ack, and on a full
packet drops everything through the checksum digits and resets the offset
to 0.  The `i > data_len - 3` guard is over Python integers, hence the cast
to `Int`. -/
def parsePacket (ps : ParserState) : Except ParseError (ParseEvent × ParserState) :=
  let data := ps.receivedData
  let dataLen := data.length
  if dataLen = 0 then
    .ok (.incomplete, ps)
  else if ps.receivedDataOffset = 0 ∧ data.head? = some '+' then
    .ok (.ack, ⟨data.drop 1, ps.receivedDataOffset⟩)
  else if ps.receivedDataOffset = 0 ∧ data.head? ≠ some '$' then
    .error (.unexpectedLeadingByte (data.headD ' '))
  else
    let start := if ps.receivedDataOffset = 0 then 1 else ps.receivedDataOffset
    let hpos := findTerm data start
    if (hpos : Int) > (dataLen : Int) - 3 then
      .ok (.incomplete, ⟨data, hpos⟩)
    else
      let payload := (data.take hpos).drop 1
      match pyIntHex ((data.drop (hpos + 1)).take 2) with
      | Option.none => .error .checksumNotValidHex
      | some check =>
        if check ≠ (checksum payload : Int) then
          .error (.checksumMismatch check (checksum payload))
        else
          .ok (.packet payload, ⟨data.drop (hpos + 3), 0⟩)

/-- Default `readRegisters` (lines 138-139): `"00000000" * registerCount`
with `registerCount = 40`. -/
def readRegistersDefault : List Char :=
  (List.replicate 40 "00000000".data).flatten

/-- Default `readMemory` (lines 150-151): `"00" * length`; Python string
repetition with a non-positive count yields the empty string, matching
`Int.toNat`. -/
def readMemoryDefault (length : Int) : List Char :=
  (List.replicate length.toNat "00".data).flatten

/-- Embeds the dispatch chain of `MockGDBServerResponder.respond`
(lines 101-136) with the default handlers (lines 138-183), preserving the
source's test order exactly.  Branches that would raise in Python are
embedded as errors:
the subscript `packet[0]` on an empty string raises `IndexError`
(line 103); tuple unpacking of a `split` result with the wrong number of
pieces, and `int(s, 16)` on a malformed field, raise `ValueError`; and the
`P` branch (lines 107-109) calls `self.readRegister(int(register, 16),
value)`, a two-argument call of the one-argument default `readRegister`
(lines 141-142), which raises `TypeError` once both arguments evaluate. -/
def respondDispatch (packet : List Char) : Except PyError (List Char) :=
  if packet = "g".data then .ok readRegistersDefault
  else
    match packet with
    | [] => .error .indexError
    | c0 :: rest =>
      if c0 = 'G' then .ok "OK".data
      else if c0 = 'p' then
        match pyIntHex rest with
        | Option.none => .error .valueError
        | some _ => .ok "00000000".data
      else if c0 = 'P' then
        match pySplit rest '=' with
        | [register, _value] =>
          match pyIntHex register with
          | Option.none => .error .valueError
          | some _ => .error .typeError
        | _ => .error .valueError
      else if c0 = 'm' then
        match pySplit rest ',' with
        | [a, l] =>
          match pyIntHex a, pyIntHex l with
          | some _, some len => .ok (readMemoryDefault len)
          | _, _ => .error .valueError
        | _ => .error .valueError
      else if c0 = 'M' then
        match pySplit rest ':' with
        | [location, _encoded] =>
          match pySplit location ',' with
          | [a, l] =>
            match pyIntHex a, pyIntHex l with
            | some _, some _ => .ok "OK".data
            | _, _ => .error .valueError
          | _ => .error .valueError
        | _ => .error .valueError
      else if packet.take 7 = "qSymbol".data then .ok "OK".data
      else if packet.take 10 = "qSupported".data then
        .ok "PacketSize=3fff;QStartNoAckMode+".data
      else if packet = "qfThreadInfo".data then .ok "l".data
      else if packet = "qC".data then .ok "QC0".data
      else if packet = "?".data then .ok "S02".data
      else if c0 = 'H' then
        match rest with
        | [] => .error .indexError
        | _op :: tid =>
          match pyIntHex tid with
          | Option.none => .error .valueError
          | some _ => .ok "OK".data
      else if packet.take 6 = "qXfer:".data then
        match pySplit (packet.drop 6) ':' with
        | [_obj, _read, _annex, location] =>
          match pySplit location ',' with
          | [o, l] =>
            match pyIntHex o, pyIntHex l with
            | some _, some _ => .ok []
            | _, _ => .error .valueError
          | _ => .error .valueError
        | _ => .error .valueError
      else .ok []

/-- Embeds `MockGDBServerResponder.respond` (lines 95-136): the command is
appended to `packetLog` first (line 100), then dispatched; the appended log
is returned alongside the dispatch outcome because in Python the log
mutation survives even when the dispatch raises. -/
def respond (packet : List Char) (packetLog : List (List Char)) :
    Except PyError (List Char) × List (List Char) :=
  (respondDispatch packet, packetLog ++ [packet])

example : respondDispatch "qC".data = .ok "QC0".data := rfl
example : respondDispatch "?".data = .ok "S02".data := rfl
example : respondDispatch "P0=12345678".data = .error .typeError := rfl
example : respondDispatch [] = .error .indexError := rfl
example : parsePacket ⟨"$#00".data, 0⟩ = .ok (.packet [], ⟨[], 0⟩) := rfl
example : parsePacket ⟨"$qC#4".data, 0⟩ = .ok (.incomplete, ⟨"$qC#4".data, 3⟩) := rfl
example : parsePacket ⟨"$qC#43".data, 3⟩ = .error (.checksumMismatch 67 180) := rfl
example : parsePacket ⟨"$qC#b4".data, 3⟩ = .ok (.packet "qC".data, ⟨[], 0⟩) := rfl
example : parsePacket ⟨"x".data, 0⟩ = .error (.unexpectedLeadingByte 'x') := rfl

/-- The per-connection server state of `MockGDBServer` (lines 195-203,
initialized at lines 239-242), with the responder's `packetLog` inlined
(the default responder has no other state) and two observation fields:
`sent`, the ordered list of `sendall` payloads, and `closed`, set when the
server closes the client connection. -/
structure ServerState where
  parser : ParserState
  shouldSendAck : Bool
  isExpectingAck : Bool
  packetLog : List (List Char)
  sent : List (List Char)
  closed : Bool
deriving Repr, DecidableEq

/-- The connection state right after `accept` (lines 239-242) with a fresh
default responder (line 206). -/
def initialServerState : ServerState :=
  { parser := ⟨[], 0⟩
    shouldSendAck := true
    isExpectingAck := false
    packetLog := []
    sent := []
    closed := false }

/-- Embeds the `PACKET_ACK` branch of `_handlePacket` (lines 331-340): an
unsolicited ack is answered with a bare `+`; an expected ack is ignored.
Neither branch assigns `_isExpectingAck`. -/
def handleAck (s : ServerState) : ServerState :=
  if s.isExpectingAck then s else { s with sent := s.sent ++ [['+']] }

/-- Embeds the command branch of `_handlePacket` (lines 341-355): send a
bare `+` first while `_shouldSendAck` holds (also setting
`_isExpectingAck`), intercept the literal `QStartNoAckMode` before any
responder dispatch, otherwise delegate to `respond`, and send the framed
response.  A responder exception propagates (in Python it escapes
`_handlePacket` and `_receive` uncaught and kills the connection thread,
whose state no test observes afterwards). -/
def handleCommand (p : List Char) (s : ServerState) : Except PyError ServerState :=
  let s1 := if s.shouldSendAck
    then { s with sent := s.sent ++ [['+']], isExpectingAck := true }
    else s
  if p = "QStartNoAckMode".data then
    .ok { s1 with shouldSendAck := false,
                  sent := s1.sent ++ [frame_packet "OK".data] }
  else
    match respondDispatch p with
    | .error e => .error e
    | .ok response =>
      .ok { s1 with packetLog := s1.packetLog ++ [p],
                    sent := s1.sent ++ [frame_packet response] }

/-- On an ack outcome the parser drops exactly one byte. -/
theorem parsePacket_ack_length {ps ps' : ParserState}
    (h : parsePacket ps = .ok (.ack, ps')) :
    ps'.receivedData.length < ps.receivedData.length := by
  simp only [parsePacket] at h
  repeat' split at h
  all_goals
    first
      | (simp only [Except.ok.injEq, Prod.mk.injEq, true_and] at h
         subst h
         simp only [List.length_tail, List.length_drop]
         omega)
      | simp at h

/-- On a packet outcome the parser buffer gets strictly shorter. -/
theorem parsePacket_packet_length {ps : ParserState} {p : List Char}
    {ps' : ParserState} (h : parsePacket ps = .ok (.packet p, ps')) :
    ps'.receivedData.length < ps.receivedData.length := by
  simp only [parsePacket] at h
  repeat' split at h
  all_goals
    first
      | (simp only [Except.ok.injEq, Prod.mk.injEq, ParseEvent.packet.injEq] at h
         obtain ⟨-, rfl⟩ := h
         simp only [List.length_tail, List.length_drop]
         omega)
      | simp at h

/-- `handleAck` does not touch the parser fields. -/
theorem handleAck_preserves_buffer (s : ServerState) : (handleAck s).parser = s.parser := by
  unfold handleAck
  split <;> rfl

/-- `handleCommand` does not touch the parser fields. -/
theorem handleCommand_preserves_buffer {p : List Char} {s s' : ServerState}
    (h : handleCommand p s = .ok s') : s'.parser = s.parser := by
  simp only [handleCommand] at h
  repeat' split at h
  all_goals
    first
      | (simp only [Except.ok.injEq] at h
         subst h
         rfl)
      | simp at h

/-- Embeds the parse-and-handle loop of `_receive` (lines 254-266): parse
and handle packets until the parser reports an incomplete packet; an
`InvalidPacketException` is caught and closes the client connection; any
other exception propagates. -/
def processBuffer (s : ServerState) : Except PyError ServerState :=
  match h : parsePacket s.parser with
  | .error _ => .ok { s with closed := true }
  | .ok (.incomplete, ps') => .ok { s with parser := ps' }
  | .ok (.ack, ps') => processBuffer (handleAck { s with parser := ps' })
  | .ok (.packet p, ps') =>
    match h2 : handleCommand p { s with parser := ps' } with
    | .error e => .error e
    | .ok s' => processBuffer s'
termination_by s.parser.receivedData.length
decreasing_by
  · have h4 := parsePacket_ack_length h
    rw [handleAck_preserves_buffer]
    exact h4
  · have h3 := handleCommand_preserves_buffer h2
    have h4 := parsePacket_packet_length h
    rw [h3]
    exact h4

/-- Appending a received chunk to the buffer (line 259). -/
def feedState (s : ServerState) (data : List Char) : ServerState :=
  { s with parser := ⟨s.parser.receivedData ++ data, s.parser.receivedDataOffset⟩ }

/-- Embeds `_receive` (lines 254-266): append the chunk, then run the
parse-and-handle loop. -/
def receive (s : ServerState) (data : List Char) : Except PyError ServerState :=
  processBuffer (feedState s data)

/-- Embeds the `_run` receive loop (lines 244-252) over a list of socket
chunks: each chunk is fed to `_receive` in order. -/
def receiveMany : ServerState → List (List Char) → Except PyError ServerState
  | s, [] => .ok s
  | s, d :: rest =>
    match receive s d with
    | .error e => .error e
    | .ok s' => receiveMany s' rest

/-- `handleAck` never changes the `_shouldSendAck` flag. -/
theorem handleAck_shouldSendAck (s : ServerState) :
    (handleAck s).shouldSendAck = s.shouldSendAck := by
  unfold handleAck
  split <;> rfl

/-- Once `_shouldSendAck` is false, `_handlePacket` on a command leaves it
false: `QStartNoAckMode` re-assigns false and no other branch touches it. -/
theorem handleCommand_noack {p : List Char} {s s' : ServerState}
    (hs : s.shouldSendAck = false) (h : handleCommand p s = .ok s') :
    s'.shouldSendAck = false := by
  simp only [handleCommand, hs] at h
  repeat' split at h
  all_goals
    first
      | (simp only [Except.ok.injEq] at h
         subst h
         simp [hs])
      | simp at h

/-- Once `_shouldSendAck` is false, handling a command appends exactly one
`sendall`, the framed response, with no bare `+` before it. -/
theorem handleCommand_noack_sent {p : List Char} {s s' : ServerState}
    (hs : s.shouldSendAck = false) (h : handleCommand p s = .ok s') :
    ∃ r, s'.sent = s.sent ++ [frame_packet r] := by
  simp only [handleCommand, hs] at h
  repeat' split at h
  all_goals
    first
      | (simp only [Except.ok.injEq] at h
         subst h
         exact ⟨_, rfl⟩)
      | simp_all

/-- The parse-and-handle loop preserves a cleared `_shouldSendAck` flag:
nothing in `_receive` or `_handlePacket` ever sets it back to true. -/
theorem processBuffer_noack :
    ∀ (s : ServerState), s.shouldSendAck = false →
      ∀ s', processBuffer s = .ok s' → s'.shouldSendAck = false := by
  intro s0
  induction s0 using processBuffer.induct with
  | case1 x e h =>
    intro hs s' hp
    rw [processBuffer.eq_def] at hp
    split at hp
    · simp only [Except.ok.injEq] at hp
      subst hp
      exact hs
    · rename_i heq
      rw [h] at heq
      simp at heq
    · rename_i heq
      rw [h] at heq
      simp at heq
    · rename_i heq
      rw [h] at heq
      simp at heq
  | case2 x ps' h =>
    intro hs s' hp
    rw [processBuffer.eq_def] at hp
    split at hp
    · rename_i heq
      rw [h] at heq
      simp at heq
    · simp only [Except.ok.injEq] at hp
      subst hp
      exact hs
    · rename_i heq
      rw [h] at heq
      simp at heq
    · rename_i heq
      rw [h] at heq
      simp at heq
  | case3 x ps' h ih =>
    intro hs s' hp
    rw [processBuffer.eq_def] at hp
    split at hp
    · rename_i heq
      rw [h] at heq
      simp at heq
    · rename_i heq
      rw [h] at heq
      simp at heq
    · rename_i ps2 heq
      rw [h] at heq
      simp only [Except.ok.injEq, Prod.mk.injEq, true_and] at heq
      subst heq
      exact ih (by rw [handleAck_shouldSendAck]; exact hs) s' hp
    · rename_i heq
      rw [h] at heq
      simp at heq
  | case4 x p ps' h e h2 =>
    intro hs s' hp
    rw [processBuffer.eq_def] at hp
    split at hp
    · rename_i heq
      rw [h] at heq
      simp at heq
    · rename_i heq
      rw [h] at heq
      simp at heq
    · rename_i heq
      rw [h] at heq
      simp at heq
    · rename_i p2 ps2 heq
      rw [h] at heq
      simp only [Except.ok.injEq, Prod.mk.injEq, ParseEvent.packet.injEq] at heq
      obtain ⟨rfl, rfl⟩ := heq
      split at hp
      · simp at hp
      · rename_i s2 heq2
        rw [h2] at heq2
        simp at heq2
  | case5 x p ps' h s1 h2 ih =>
    intro hs s' hp
    rw [processBuffer.eq_def] at hp
    split at hp
    · rename_i heq
      rw [h] at heq
      simp at heq
    · rename_i heq
      rw [h] at heq
      simp at heq
    · rename_i heq
      rw [h] at heq
      simp at heq
    · rename_i p2 ps2 heq
      rw [h] at heq
      simp only [Except.ok.injEq, Prod.mk.injEq, ParseEvent.packet.injEq] at heq
      obtain ⟨rfl, rfl⟩ := heq
      split at hp
      · simp at hp
      · rename_i s2 heq2
        rw [h2] at heq2
        simp only [Except.ok.injEq] at heq2
        subst heq2
        exact ih
          (handleCommand_noack
            (show ({ x with parser := ps' } : ServerState).shouldSendAck = false from hs) h2)
          s' hp

/-- Taking the length of the left part of an append returns that part. -/
theorem take_len_append {α : Type} (l₁ l₂ : List α) :
    (l₁ ++ l₂).take l₁.length = l₁ := by
  induction l₁ with
  | nil => rfl
  | cons a l ih => simp [ih]

/-- Dropping one past the left part of an append, where a marker sits,
returns everything after the marker. -/
theorem drop_len_append_cons {α : Type} (l₁ : List α) (c : α) (l₂ : List α) :
    (l₁ ++ c :: l₂).drop (l₁.length + 1) = l₂ := by
  induction l₁ with
  | nil => rfl
  | cons a l ih => simpa using ih

/-- The scan for `#` over a hash-free prefix followed by `#` stops exactly
at the prefix's length. -/
theorem findIdx_hash (l cs : List Char) (h : ∀ c ∈ l, c ≠ '#') :
    List.findIdx (fun c => c == '#') (l ++ '#' :: cs) = l.length := by
  induction l with
  | nil => simp [List.findIdx_cons]
  | cons a t ih =>
    have ha : (a == '#') = false := by
      have := h a (by simp)
      simpa using this
    simp only [List.cons_append, List.findIdx_cons, ha, cond_false, List.length_cons]
    rw [ih (fun c hc => h c (by simp [hc]))]

/-- The checksum loop accumulator equals the sum of the byte values. -/
theorem checksum_foldl (l : List Char) :
    ∀ a : Nat, l.foldl (fun check c => check + c.toNat) a = a + (l.map Char.toNat).sum := by
  induction l with
  | nil => intro a; simp
  | cons c t ih =>
    intro a
    simp only [List.foldl_cons, List.map_cons, List.sum_cons, ih]
    omega

/-- Splitting a separator-free string returns the single piece. -/
theorem pySplit_no_sep {l : List Char} {sep : Char} (h : ∀ c ∈ l, c ≠ sep) :
    pySplit l sep = [l] := by
  induction l with
  | nil => rfl
  | cons a t ih =>
    have ha : ¬a = sep := h a (by simp)
    rw [pySplit, if_neg ha, ih (fun c hc => h c (by simp [hc]))]

/-- Splitting at the single separator between two separator-free fields
yields exactly those two fields. -/
theorem pySplit_two {r v : List Char} {sep : Char}
    (hr : ∀ c ∈ r, c ≠ sep) (hv : ∀ c ∈ v, c ≠ sep) :
    pySplit (r ++ sep :: v) sep = [r, v] := by
  induction r with
  | nil => simp [pySplit, pySplit_no_sep hv]
  | cons a t ih =>
    have ha : ¬a = sep := hr a (by simp)
    rw [List.cons_append, pySplit, if_neg ha,
      ih (fun c hc => hr c (by simp [hc]))]

/-- A hex digit is not Python whitespace and not a sign character. -/
theorem hexDigit_not_special {c : Char} (h : (hexDigitVal c).isSome) :
    isPySpace c = false ∧ c ≠ '+' ∧ c ≠ '-' := by
  have hb : (48 ≤ c.toNat ∧ c.toNat ≤ 57) ∨ (97 ≤ c.toNat ∧ c.toNat ≤ 102) ∨
      (65 ≤ c.toNat ∧ c.toNat ≤ 70) := by
    by_contra hc
    push_neg at hc
    unfold hexDigitVal at h
    rw [if_neg, if_neg, if_neg] at h
    · simp at h
    · omega
    · omega
    · omega
  refine ⟨?_, ?_, ?_⟩
  · simp only [isPySpace, Bool.or_eq_false_iff, decide_eq_false_iff_not]
    omega
  · intro hq
    subst hq
    revert hb
    decide
  · intro hq
    subst hq
    revert hb
    decide

/-- Stripping leaves a string with no whitespace characters unchanged. -/
theorem pyStrip_eq_self {l : List Char} (h : ∀ c ∈ l, isPySpace c = false) :
    pyStrip l = l := by
  have hdw : ∀ (m : List Char), (∀ c ∈ m, isPySpace c = false) →
      m.dropWhile isPySpace = m := by
    intro m hm
    cases m with
    | nil => rfl
    | cons a t => simp [List.dropWhile_cons, hm a (by simp)]
  rw [pyStrip, hdw l h, hdw l.reverse (fun c hc => h c (List.mem_reverse.mp hc)),
    List.reverse_reverse]

/-- A lowercase hex digit decodes to its value and is neither whitespace
nor a sign character. -/
theorem hexDigitVal_lower : ∀ d, d < 16 →
    hexDigitVal (hexDigitLower d) = some d ∧ isPySpace (hexDigitLower d) = false ∧
      hexDigitLower d ≠ '+' ∧ hexDigitLower d ≠ '-' := by
  decide

/-- Decoding the two lowercase hex digits written by `%02x` recovers the
value, for any value below 256. -/
theorem pyIntHex_format02x (n : Nat) (hn : n < 256) :
    pyIntHex (format02x n) = some (n : Int) := by
  have h1 := hexDigitVal_lower (n / 16) (by omega)
  have h2 := hexDigitVal_lower (n % 16) (by omega)
  have hd : n / 16 % 16 = n / 16 := Nat.mod_eq_of_lt (by omega)
  have hmem : ∀ c ∈ format02x n, isPySpace c = false := by
    intro c hc
    rw [format02x, hd] at hc
    simp only [List.mem_cons, List.not_mem_nil, or_false] at hc
    rcases hc with rfl | rfl
    · exact h1.2.1
    · exact h2.2.1
  have hs := pyStrip_eq_self hmem
  rw [format02x, hd] at hs ⊢
  rw [pyIntHex, hs]
  simp only [if_neg h1.2.2.1, if_neg h1.2.2.2]
  simp [hexValAcc, h1.1, h2.1]
  omega

/-- A run of hex digits always accumulates to a value. -/
theorem hexValAcc_isSome {l : List Char} (h : ∀ c ∈ l, (hexDigitVal c).isSome) :
    ∀ a, ∃ n, hexValAcc l a = some n := by
  induction l with
  | nil => intro a; exact ⟨a, rfl⟩
  | cons c t ih =>
    intro a
    have hc := h c (by simp)
    obtain ⟨v, hv⟩ := Option.isSome_iff_exists.mp hc
    rw [hexValAcc, hv]
    exact ih (fun d hd => h d (by simp [hd])) (a * 16 + v)

/-- Python `int(s, 16)` succeeds on any nonempty plain hex-digit string. -/
theorem pyIntHex_hex {l : List Char} (hne : l ≠ [])
    (h : ∀ c ∈ l, (hexDigitVal c).isSome) : ∃ n : Nat, pyIntHex l = some (n : Int) := by
  have hs : pyStrip l = l := pyStrip_eq_self (fun c hc => (hexDigit_not_special (h c hc)).1)
  cases l with
  | nil => exact absurd rfl hne
  | cons c t =>
    have hc := hexDigit_not_special (h c (by simp))
    obtain ⟨n, hn⟩ := hexValAcc_isSome h 0
    refine ⟨n, ?_⟩
    rw [pyIntHex, hs]
    simp only [if_neg hc.2.1, if_neg hc.2.2, hn]
    rfl

/-- C9: for every byte string P, `checksum P` is the sum of the byte
values of P modulo 256; in particular `checksum ""` is 0 and
`checksum "+$#"` is 0x72. -/
theorem C9_checksum_mod256 :
    (∀ P : List Char, checksum P = (P.map Char.toNat).sum % 256) ∧
      checksum [] = 0 ∧ checksum "+$#".data = 0x72 := by
  refine ⟨fun P => ?_, rfl, by decide⟩
  rw [checksum, checksum_foldl]
  simp

/-- C2 (code_bug record): `hex_decode_bytes` is not a left inverse of
`hex_encode_bytes` on any byte sequence: the Python body reads the local
`i` before it is ever assigned, so every call raises `UnboundLocalError`
instead of returning the decoded bytes or a format error. -/
theorem C2_hex_decode_always_raises (B : List Char) :
    hex_decode_bytes (hex_encode_bytes B) = .error .unboundLocalError ∧
      hex_decode_bytes (hex_encode_bytes B) ≠ .ok B :=
  ⟨rfl, fun hcon => Except.noConfusion hcon⟩

/-- C3 counterexample: receiving an ack while the expecting-ack flag is
true does not set the flag back to false — `_handlePacket` never resets
`_isExpectingAck`. -/
theorem C3_flag_not_cleared :
    (handleAck { initialServerState with isExpectingAck := true }).isExpectingAck ≠ false := by
  decide

/-- C3 (amended): on an ack with the expecting-ack flag false the server
sends a single bare `+`; on an ack with the flag true nothing is sent and
the whole state — the flag included — is left unchanged (the code never
resets the flag to false). -/
theorem C3_ack_handling :
    (∀ s : ServerState, s.isExpectingAck = false →
        handleAck s = { s with sent := s.sent ++ [['+']] }) ∧
      (∀ s : ServerState, s.isExpectingAck = true → handleAck s = s) := by
  constructor
  · intro s hs
    rw [handleAck, if_neg (by simp [hs])]
  · intro s hs
    rw [handleAck, if_pos hs]

/-- C3 witness: both branches evaluated at concrete connection states. -/
theorem C3_ack_handling_witness :
    handleAck initialServerState =
        { initialServerState with sent := initialServerState.sent ++ [['+']] } ∧
      handleAck { initialServerState with isExpectingAck := true } =
        { initialServerState with isExpectingAck := true } :=
  ⟨C3_ack_handling.1 initialServerState rfl,
    C3_ack_handling.2 { initialServerState with isExpectingAck := true } rfl⟩

/-- C4 counterexample: after feeding `"$qC#4"` (incomplete, scan parked at
the `#`) and then `"3"`, the parser raises a checksum-mismatch
`InvalidPacketException` — `0x43` is not the checksum of `"qC"`, which is
0xb4 — instead of yielding the packet `"qC"` with no error. -/
theorem C4_wrong_checksum :
    parsePacket ⟨"$qC#4".data, 0⟩ = .ok (.incomplete, ⟨"$qC#4".data, 3⟩) ∧
      parsePacket ⟨("$qC#4" ++ "3").data, 3⟩ = .error (.checksumMismatch 67 180) :=
  ⟨rfl, rfl⟩

/-- C4 (amended): with the correct checksum bytes `b4` for `"qC"`, feeding
`"$qC#b"` yields no packet (incomplete, offset parked at 3) and then
feeding the single byte `"4"` yields exactly one packet `"qC"`, consuming
the buffer, with no error raised. -/
theorem C4_split_checksum_resumes :
    parsePacket ⟨"$qC#b".data, 0⟩ = .ok (.incomplete, ⟨"$qC#b".data, 3⟩) ∧
      parsePacket ⟨("$qC#b" ++ "4").data, 3⟩ = .ok (.packet "qC".data, ⟨[], 0⟩) :=
  ⟨rfl, rfl⟩

/-- C8: the responder's command log is append-only — `respond` always
returns the old log with exactly the received command appended, before and
independently of the dispatch outcome — and dispatching `"qC"`, `"g"`,
`"?"` in sequence leaves the log `["qC", "g", "?"]`. -/
theorem C8_packetLog_append_only :
    (∀ (p : List Char) (log : List (List Char)), (respond p log).2 = log ++ [p]) ∧
      (respond "?".data ((respond "g".data ((respond "qC".data []).2)).2)).2 =
        ["qC".data, "g".data, "?".data] :=
  ⟨fun p log => rfl, rfl⟩

/-- C10: the parser accepts the well-formed empty-payload frame `"$#00"`
and yields the empty command, but `respond` on the empty command raises
`IndexError` (`packet[0]` at line 103) instead of returning the default
unsupported-command empty reply. -/
theorem C10_empty_packet_crashes :
    parsePacket ⟨"$#00".data, 0⟩ = .ok (.packet [], ⟨[], 0⟩) ∧
      (respond [] []).1 = .error .indexError ∧
      (respond [] []).1 ≠ .ok [] :=
  ⟨rfl, rfl, fun hcon => Except.noConfusion hcon⟩

/-- C6: an `InvalidPacketException` raised while feeding buffered bytes to
the parser makes `_receive` close the client connection immediately; the
state is otherwise untouched, so in particular no reply bytes are sent for
the offending data. -/
theorem C6_invalid_packet_closes (s : ServerState) (data : List Char) (e : ParseError)
    (h : parsePacket (feedState s data).parser = .error e) :
    receive s data = .ok { feedState s data with closed := true } := by
  rw [receive, processBuffer.eq_def]
  split
  · rfl
  · rename_i heq
    rw [h] at heq
    simp at heq
  · rename_i heq
    rw [h] at heq
    simp at heq
  · rename_i heq
    rw [h] at heq
    simp at heq

/-- C6 witness: a leading byte that is neither `$` nor `+` closes the
connection with nothing sent. -/
theorem C6_witness :
    receive initialServerState "x".data =
      .ok { feedState initialServerState "x".data with closed := true } :=
  C6_invalid_packet_closes initialServerState "x".data (.unexpectedLeadingByte 'x') rfl

/-- C7: `QStartNoAckMode` is intercepted by the server before responder
dispatch — the reply is a bare `+` followed by the framed `OK`, the
command is not logged, and `_shouldSendAck` is set to false; the receive
loop then keeps `_shouldSendAck` false for the rest of the connection; and
while it is false every handled command produces exactly one send, the
framed reply, with no `+` ack byte before it. -/
theorem C7_no_ack_mode :
    (∀ s : ServerState, s.shouldSendAck = true →
        handleCommand "QStartNoAckMode".data s =
          .ok { s with shouldSendAck := false, isExpectingAck := true,
                       sent := s.sent ++ [['+'], frame_packet "OK".data] }) ∧
      (∀ (s : ServerState) (chunks : List (List Char)) (s' : ServerState),
        s.shouldSendAck = false → receiveMany s chunks = .ok s' →
          s'.shouldSendAck = false) ∧
      (∀ (s : ServerState) (p : List Char) (s' : ServerState),
        s.shouldSendAck = false → handleCommand p s = .ok s' →
          ∃ r, s'.sent = s.sent ++ [frame_packet r]) := by
  refine ⟨?_, ?_, ?_⟩
  · intro s hs
    simp only [handleCommand, hs]
    simp [List.append_assoc]
  · intro s chunks
    induction chunks generalizing s with
    | nil =>
      intro s' hs hp
      simp only [receiveMany, Except.ok.injEq] at hp
      subst hp
      exact hs
    | cons d rest ih =>
      intro s' hs hp
      simp only [receiveMany] at hp
      split at hp
      · simp at hp
      · rename_i s1 heq
        have h1 : s1.shouldSendAck = false :=
          processBuffer_noack (feedState s d)
            (show (feedState s d).shouldSendAck = false from hs) s1 heq
        exact ih s1 s' h1 hp
  · intro s p s' hs hp
    exact handleCommand_noack_sent hs hp

/-- C7 witness: the interception at the fresh connection state, the loop
invariant on an empty chunk list, and the single framed send for `qC`. -/
theorem C7_no_ack_mode_witness :
    (handleCommand "QStartNoAckMode".data initialServerState =
        .ok { initialServerState with
                shouldSendAck := false
                isExpectingAck := true
                sent := initialServerState.sent ++ [['+'], frame_packet "OK".data] }) ∧
      ({ initialServerState with shouldSendAck := false } : ServerState).shouldSendAck = false ∧
      (∃ r, ({ initialServerState with
                 shouldSendAck := false
                 packetLog := ["qC".data]
                 sent := [frame_packet "QC0".data] } : ServerState).sent =
          ({ initialServerState with shouldSendAck := false } : ServerState).sent ++
            [frame_packet r]) :=
  ⟨C7_no_ack_mode.1 initialServerState rfl,
    C7_no_ack_mode.2.1 { initialServerState with shouldSendAck := false } []
      { initialServerState with shouldSendAck := false } rfl rfl,
    C7_no_ack_mode.2.2 { initialServerState with shouldSendAck := false } "qC".data
      { initialServerState with
          shouldSendAck := false
          packetLog := ["qC".data]
          sent := [frame_packet "QC0".data] } rfl rfl⟩

/-- C1 (code_bug record): a well-formed `P<hex-reg-id>=<hex-value>` packet
is not answered with `OK` by the default handlers: the `P` branch of
`respond` (line 109) calls `self.readRegister(int(register, 16), value)`
with two arguments although the default `readRegister` takes one, so the
dispatch raises `TypeError` instead of calling `writeRegister`. -/
theorem C1_P_packet_raises (r v : List Char) (hr : r ≠ [])
    (hrh : ∀ c ∈ r, (hexDigitVal c).isSome)
    (hvh : ∀ c ∈ v, (hexDigitVal c).isSome) :
    respondDispatch ('P' :: (r ++ '=' :: v)) = .error .typeError ∧
      respondDispatch ('P' :: (r ++ '=' :: v)) ≠ .ok "OK".data := by
  have hrs : ∀ c ∈ r, c ≠ '=' := by
    intro c hc heq
    have hx := hrh c hc
    subst heq
    revert hx
    decide
  have hvs : ∀ c ∈ v, c ≠ '=' := by
    intro c hc heq
    have hx := hvh c hc
    subst heq
    revert hx
    decide
  have hsp := pySplit_two hrs hvs
  obtain ⟨n, hn⟩ := pyIntHex_hex hr hrh
  have hmain : respondDispatch ('P' :: (r ++ '=' :: v)) = .error .typeError := by
    rw [respondDispatch.eq_def,
      if_neg (by intro hcon; injection hcon with h1 h2; revert h1; decide)]
    simp only
    rw [if_neg (by decide), if_neg (by decide), if_pos trivial, hsp]
    simp only [hn]
  exact ⟨hmain, by rw [hmain]; exact fun hcon => Except.noConfusion hcon⟩

/-- C1 witness: the concrete packet `P0=12345678` raises `TypeError`. -/
theorem C1_P_packet_raises_witness :
    respondDispatch "P0=12345678".data = .error .typeError ∧
      respondDispatch "P0=12345678".data ≠ .ok "OK".data :=
  C1_P_packet_raises "0".data "12345678".data (by decide) (by decide) (by decide)

/-- C5: round-trip framing — for every payload P containing none of the
reserved bytes `$`, `#`, `+`, parsing exactly the bytes `frame_packet P`
from a fresh parser state yields the payload P and consumes the whole
buffer. -/
theorem C5_frame_roundtrip (P : List Char)
    (h : ∀ c ∈ P, c ≠ '$' ∧ c ≠ '#' ∧ c ≠ '+') :
    parsePacket ⟨frame_packet P, 0⟩ = .ok (.packet P, ⟨[], 0⟩) := by
  have hck : checksum P < 256 := by rw [checksum]; omega
  have hlen : (frame_packet P).length = P.length + 4 := by
    rw [frame_packet, format02x]
    simp
  have hfind : findTerm (frame_packet P) 1 = P.length + 1 := by
    rw [findTerm, frame_packet]
    have hdr : List.drop 1 ('$' :: (P ++ '#' :: format02x (checksum P))) =
        P ++ '#' :: format02x (checksum P) := rfl
    rw [hdr, findIdx_hash P _ (fun c hc => (h c hc).2.1)]
    omega
  simp only [parsePacket]
  rw [if_neg (by rw [hlen]; omega)]
  rw [if_neg (by
    intro hcon
    have h2 := hcon.2
    rw [frame_packet, List.head?_cons] at h2
    injection h2 with h3
    exact absurd h3 (by decide))]
  rw [if_neg (by
    intro hcon
    exact hcon.2 (by rw [frame_packet, List.head?_cons]))]
  simp only [if_true]
  rw [hfind, hlen]
  rw [if_neg (by push_cast; omega)]
  have hdrop2 : List.drop (P.length + 1 + 1) (frame_packet P) = format02x (checksum P) := by
    rw [frame_packet, List.drop_succ_cons]
    exact drop_len_append_cons P '#' _
  have htake2 : List.take 2 (format02x (checksum P)) = format02x (checksum P) := rfl
  have hpay : List.drop 1 (List.take (P.length + 1) (frame_packet P)) = P := by
    rw [frame_packet, List.take_succ_cons, take_len_append]
    rfl
  have hdrop4 : List.drop (P.length + 1 + 3) (frame_packet P) = [] := by
    apply List.drop_eq_nil_of_le
    rw [hlen]
  rw [hdrop2, htake2, pyIntHex_format02x (checksum P) hck, hpay, hdrop4]
  simp only
  rw [if_neg (fun hcon => hcon rfl)]

/-- C5 witness: the payload `OK` round-trips through framing and parsing. -/
theorem C5_frame_roundtrip_witness :
    parsePacket ⟨frame_packet "OK".data, 0⟩ = .ok (.packet "OK".data, ⟨[], 0⟩) :=
  C5_frame_roundtrip "OK".data (by decide)
